import Mathlib

/-!
Shallow embedding of the finite-state-machine library of this repository
(`createMachine`, `assign`, `interpret` and their helpers), together with
theorems about its transition semantics, `changed` flag, action ordering,
guard resolution, error behaviour and the interpreter service.

JavaScript objects used as string-keyed records are modelled as association
lists; property access that can hit `undefined` returns `Option`; code paths
that throw are modelled with `Except`.
-/

/-- Values stored in a machine context (numbers and strings suffice for the
properties considered here). -/
inductive Value where
  | num (n : Int)
  | str (s : String)
deriving Repr, DecidableEq

/-- A JS object holding context data: an association list from keys to values. -/
abbrev Context := List (String × Value)

/-- JS property read `obj[key]`: `none` models `undefined`. -/
def objGet {α : Type} : List (String × α) → String → Option α
  | [], _ => none
  | (k, v) :: rest, key => if k = key then some v else objGet rest key

/-- JS property write `obj[key] = v`: update in place if the key exists,
append otherwise (insertion order of a JS object). -/
def setKey : Context → String → Value → Context
  | [], key, v => [(key, v)]
  | (k, v0) :: rest, key, v =>
      if k = key then (k, v) :: rest else (k, v0) :: setKey rest key v

/-- A canonical event object `\x7b type \x7d`. -/
structure EventObject where
  type : String
deriving Repr, DecidableEq

/-- An event argument: a string shorthand or an event object. -/
inductive EventArg where
  | str (s : String)
  | obj (e : EventObject)

/-- `toEventObject`: string shorthand becomes `\x7b type: event \x7d`. -/
def toEventObject : EventArg → EventObject
  | .str s => { type := s }
  | .obj e => e

/-- A JS function value used as an action implementation; identified by its
`name` property (the engine only stores and later invokes it). -/
structure JSFun where
  name : String
deriving Repr, DecidableEq

/-- The per-key value of an object-shaped assignment: a literal or an updater
function `(context, event) => value`. -/
inductive AssignVal where
  | lit (v : Value)
  | func (f : Context → EventObject → Value)

/-- An assignment: a whole-context function or an object of per-key updates. -/
inductive Assignment where
  | func (f : Context → EventObject → Context)
  | obj (entries : List (String × AssignVal))

/-- A canonical action object. `exec` is absent for pure-type actions;
`assignment` is present exactly on objects built by `assign`. -/
structure ActionObject where
  type : String
  exec : Option JSFun := none
  assignment : Option Assignment := none

/-- A raw action as written in a configuration: a string, a function, or an
action object. -/
inductive ActionDesc where
  | str (s : String)
  | func (f : JSFun)
  | obj (a : ActionObject)

/-- `toActionObject`: string becomes a typed object, a function contributes
its name and itself as `exec`, objects pass through. -/
def toActionObject : ActionDesc → ActionObject
  | .str s => { type := s }
  | .func f => { type := f.name, exec := some f }
  | .obj a => a

def ASSIGN_ACTION_TYPE : String := "__assign__"

/-- `assign(assignment)`: the reserved assign action object. -/
def assign (assignment : Assignment) : ActionObject :=
  { type := ASSIGN_ACTION_TYPE, assignment := some assignment }

/-- A field that may be absent, a single value, or an array (the shapes
`toArray` accepts). -/
inductive OneOrMany (α : Type) where
  | one (a : α)
  | many (l : List α)

/-- A transition descriptor: string shorthand for a target, or an object. -/
structure TransitionObject where
  target : Option String := none
  actions : Option (OneOrMany ActionDesc) := none
  cond : Option (Context → EventObject → Bool) := none

inductive TransitionDesc where
  | str (target : String)
  | obj (t : TransitionObject)

/-- `toTransitionObject`: string shorthand becomes `\x7b target \x7d`. -/
def toTransitionObject : TransitionDesc → TransitionObject
  | .str target => { target := some target }
  | .obj t => t

/-- The value stored under an event type in a state's `on` table: one
candidate or an array of candidates; `none` entries model falsy candidates
(`null`, `false`, ...) appearing in a candidate list. -/
abbrev TransitionValue := OneOrMany (Option TransitionDesc)

/-- `toArray` applied to the `on`-table lookup: an absent entry gives the
empty list, a single candidate a singleton, an array itself. -/
def toArrayT : Option TransitionValue → List (Option TransitionDesc)
  | none => []
  | some (.one x) => [x]
  | some (.many l) => l

/-- A state node configuration. -/
structure StateConfig where
  entry : Option (OneOrMany ActionDesc) := none
  exit : Option (OneOrMany ActionDesc) := none
  «on» : Option (List (String × TransitionValue)) := none

/-- A machine configuration. -/
structure MachineConfig where
  context : Context := []
  id : String
  initial : String
  states : List (String × StateConfig)

/-- A state descriptor as returned by the machine. `changed` is `none` when
the JS object carries no `changed` field (the literal initial state). -/
structure StateDesc where
  actions : List ActionObject := []
  changed : Option Bool := none
  context : Context := []
  value : String

/-- A state argument to `transition`: a string shorthand or a descriptor. -/
inductive StateArg where
  | str (s : String)
  | obj (st : StateDesc)

/-- `toStateObject`: string shorthand becomes `\x7b value \x7d`. -/
def toStateObject : StateArg → StateDesc
  | .str s => { value := s }
  | .obj st => st

/-- Errors thrown by the engine: the explicit unknown-state `Error` carrying
the machine id, and runtime `TypeError`s from property access on
`undefined`. -/
inductive JSError where
  | unknownState (id : String) (value : String)
  | typeError (msg : String)
deriving Repr, DecidableEq

/-- Message of the `TypeError` raised by `nextStateConfig.entry` (and by
`states[initial].entry`) when the state is absent. -/
def ENTRY_OF_UNDEFINED : String := "Cannot read property entry of undefined"

/-- Message of the `TypeError` raised by `Object.keys(assignment)` when an
assign action carries no assignment. -/
def KEYS_OF_UNDEFINED : String := "Cannot convert undefined to object"

/-- Contribution of an `exit`/`entry` field to the raw `[].concat(...)`
sequence: an absent field contributes the `undefined` itself (removed later
by `.filter(Boolean)`), a single action a singleton, an array its elements. -/
def fieldRaw : Option (OneOrMany ActionDesc) → List (Option ActionDesc)
  | none => [none]
  | some (.one a) => [some a]
  | some (.many l) => l.map some

/-- Contribution of the destructured transition `actions` (defaulted to `[]`
when absent) to the raw sequence. -/
def actionsRaw : Option (OneOrMany ActionDesc) → List (Option ActionDesc)
  | none => []
  | some (.one a) => [some a]
  | some (.many l) => l.map some

/-- JS truthiness of a raw action entry (`.filter(Boolean)`): `undefined` and
the empty string are falsy, functions and objects are truthy. -/
def actionTruthy : Option ActionDesc → Bool
  | none => false
  | some (.str s) => !s.isEmpty
  | some (.func _) => true
  | some (.obj _) => true

/-- Evaluate one per-key assignment value against the pre-assignment context. -/
def evalAssignVal (v : AssignVal) (ctx : Context) (ev : EventObject) : Value :=
  match v with
  | .lit v => v
  | .func f => f ctx ev

/-- Fold one assignment into the running context: a function replaces the
context wholesale; an object starts from a copy and sets each key, every
updater seeing the pre-assignment context. -/
def applyAssignment (nextContext : Context) (ev : EventObject) : Assignment → Context
  | .func f => f nextContext ev
  | .obj entries =>
      entries.foldl
        (fun tempContext kv =>
          setKey tempContext kv.fst (evalAssignVal kv.snd nextContext ev))
        nextContext

/-- The side-effecting `.filter` pass over the combined action list: keeps
non-assign actions in order, folds each assign into the running context and
records that an assign happened. An assign action without an assignment makes
`Object.keys(undefined)` throw. -/
def foldAssigns (eventObject : EventObject) :
    List ActionObject → Context → Bool →
    Except JSError (List ActionObject × Context × Bool)
  | [], nextContext, assigned => .ok ([], nextContext, assigned)
  | action :: rest, nextContext, assigned =>
      if action.type != ASSIGN_ACTION_TYPE then
        match foldAssigns eventObject rest nextContext assigned with
        | .error e => .error e
        | .ok (kept, c, b) => .ok (action :: kept, c, b)
      else
        match action.assignment with
        | none => .error (.typeError KEYS_OF_UNDEFINED)
        | some asg =>
            foldAssigns eventObject rest
              (applyAssignment nextContext eventObject asg) true

/-- The `transitionFailure` descriptor built at the top of `transition`. -/
def transitionFailure (context : Context) (value : String) : StateDesc :=
  { actions := [], changed := some false, context := context, value := value }

/-- The `for (const transition of transitions)` loop: a falsy candidate
returns the failure immediately; otherwise the first candidate whose guard is
truthy is resolved (reading `nextStateConfig.entry` throws when the target is
not a state), and an exhausted list returns the failure. -/
def transitionLoop (config : MachineConfig) (context : Context) (value : String)
    (stateConfig : StateConfig) (eventObject : EventObject) :
    List (Option TransitionDesc) → Except JSError StateDesc
  | [] => .ok (transitionFailure context value)
  | none :: _ => .ok (transitionFailure context value)
  | some tr :: rest =>
      let t := toTransitionObject tr
      let target := t.target.getD value
      let cond := t.cond.getD (fun _ _ => true)
      if cond context eventObject then
        match objGet config.states target with
        | none => .error (.typeError ENTRY_OF_UNDEFINED)
        | some nextStateConfig =>
            let raw :=
              fieldRaw stateConfig.exit ++ actionsRaw t.actions ++
                fieldRaw nextStateConfig.entry
            let mapped :=
              ((raw.filter actionTruthy).filterMap (fun x => x)).map toActionObject
            match foldAssigns eventObject mapped context false with
            | .error e => .error e
            | .ok (allActions, nextContext, assigned) =>
                .ok { actions := allActions,
                      changed :=
                        some (target != value || !allActions.isEmpty || assigned),
                      context := nextContext,
                      value := target }
      else
        transitionLoop config context value stateConfig eventObject rest

/-- A machine value: the eagerly built `initialState` and the captured
configuration (the closure state of `transition`). -/
structure Machine where
  initialState : StateDesc
  config : MachineConfig

/-- `transition(state, event)` of the machine returned by `createMachine`. -/
def Machine.transition (m : Machine) (state : StateArg) (event : EventArg) :
    Except JSError StateDesc :=
  let context := m.config.context
  let value := (toStateObject state).value
  match objGet m.config.states value with
  | none => .error (.unknownState m.config.id value)
  | some stateConfig =>
      match stateConfig.on with
      | none => .ok (transitionFailure context value)
      | some onTable =>
          let eventObject := toEventObject event
          let transitions := toArrayT (objGet onTable eventObject.type)
          transitionLoop m.config context value stateConfig eventObject transitions

/-- `toArray(states[initial].entry)` for the initial state's actions. -/
def toArrayA : Option (OneOrMany ActionDesc) → List ActionDesc
  | none => []
  | some (.one a) => [a]
  | some (.many l) => l

/-- `createMachine(config)`: building `initialState` reads
`states[initial].entry`, so a missing initial state throws a `TypeError`
already at construction. -/
def createMachine (config : MachineConfig) : Except JSError Machine :=
  match objGet config.states config.initial with
  | none => .error (.typeError ENTRY_OF_UNDEFINED)
  | some initialConfig =>
      .ok { initialState :=
              { actions := (toArrayA initialConfig.entry).map toActionObject,
                context := config.context,
                value := config.initial },
            config := config }

/-- A running service: the current state, the started flag and the set of
subscribed listeners (identified by tokens, in subscription order). -/
structure Service where
  state : StateDesc
  isStarted : Bool
  listeners : List Nat

/-- `interpret(machine)`: a stopped service holding the initial state. -/
def interpret (machine : Machine) : Service :=
  { state := machine.initialState, isStarted := false, listeners := [] }

def Service.currentState (s : Service) : StateDesc := s.state

/-- One recorded invocation `exec(state.context, toEventObject(event))`. -/
structure ExecCall where
  fn : JSFun
  context : Context
  event : EventObject
deriving Repr, DecidableEq

/-- `send(event)`: a no-op when not started; otherwise take the transition,
invoke `exec` of each returned action in order (actions without `exec` are
skipped), and notify every listener. Returns the updated service, the exec
invocations and the notified listeners. -/
def Service.send (machine : Machine) (s : Service) (event : EventArg) :
    Except JSError (Service × List ExecCall × List Nat) :=
  if !s.isStarted then .ok (s, [], [])
  else
    match machine.transition (.obj s.state) event with
    | .error e => .error e
    | .ok st =>
        let execs := st.actions.filterMap fun a =>
          a.exec.map fun f =>
            { fn := f, context := st.context, event := toEventObject event }
        .ok ({ s with state := st }, execs, s.listeners)

/-- `start()`: set the started flag and notify the current listeners. -/
def Service.start (s : Service) : Service × List Nat :=
  ({ s with isStarted := true }, s.listeners)

/-- `stop()`: clear the started flag and delete every listener. -/
def Service.stop (s : Service) : Service :=
  { s with isStarted := false, listeners := [] }

/-- `subscribe(listener)`: add to the listener set (a `Set`, so re-adding an
existing listener is a no-op). -/
def Service.subscribe (s : Service) (l : Nat) : Service :=
  if s.listeners.contains l then s
  else { s with listeners := s.listeners ++ [l] }

/-! ## Concrete machines used as test vectors -/

/-- The updater `c => c.count + 1` of the workshop's counter machine. -/
def incFn : Context → EventObject → Value := fun c _ =>
  match objGet c ("count") with
  | some (.num n) => .num (n + 1)
  | _ => .num 0

/-- A counter machine: context `\x7b count: 0 \x7d` and a self-transition on
`INC` whose only action is `assign(\x7b count: c => c.count + 1 \x7d)`. -/
def counterConfig : MachineConfig :=
  { context := [(("count"), Value.num 0)],
    id := "counter",
    initial := "idle",
    states :=
      [(("idle"),
        { «on» := some
            [(("INC"),
              OneOrMany.one (some (TransitionDesc.obj
                { target := some ("idle"),
                  actions := some (OneOrMany.one (ActionDesc.obj
                    (assign (Assignment.obj
                      [(("count"), AssignVal.func incFn)])))) })))] })] }

/-- The machine `createMachine(counterConfig)` evaluates to. -/
def counterMachine : Machine :=
  { initialState :=
      { actions := [], context := [(("count"), Value.num 0)], value := "idle" },
    config := counterConfig }

/-- The descriptor returned by the first `transition('idle', 'INC')` call. -/
def counterAfterOne : StateDesc :=
  { actions := [],
    changed := some true,
    context := [(("count"), Value.num 1)],
    value := "idle" }

/-- A machine whose only transition carries a context-preserving function
assignment `assign(c => c)` and no target and no other actions. -/
def idConfig : MachineConfig :=
  { context := [(("flag"), Value.num 0)],
    id := "idm",
    initial := "idle",
    states :=
      [(("idle"),
        { «on» := some
            [(("PING"),
              OneOrMany.one (some (TransitionDesc.obj
                { actions := some (OneOrMany.one (ActionDesc.obj
                    (assign (Assignment.func (fun c _ => c))))) })))] })] }

/-- The machine `createMachine(idConfig)` evaluates to. -/
def idMachine : Machine :=
  { initialState :=
      { actions := [], context := [(("flag"), Value.num 0)], value := "idle" },
    config := idConfig }

/-- A machine whose transition on `GO` targets a state name that is not a key
of `states`. -/
def btConfig : MachineConfig :=
  { id := "bt",
    initial := "a",
    states :=
      [(("a"),
        { «on» := some
            [(("GO"), OneOrMany.one (some (TransitionDesc.str ("nope"))))] })] }

/-- The machine `createMachine(btConfig)` evaluates to. -/
def btMachine : Machine :=
  { initialState := { actions := [], context := [], value := "a" },
    config := btConfig }

/-- Guarded candidates of the tie-break example: `B` with a false guard, then
`C` and `D` with true guards. -/
def tdB : TransitionDesc :=
  .obj { target := some ("B"), cond := some (fun _ _ => false) }

def tdC : TransitionDesc :=
  .obj { target := some ("C"), cond := some (fun _ _ => true) }

def tdD : TransitionDesc :=
  .obj { target := some ("D"), cond := some (fun _ _ => true) }

/-- The tie-break machine: in state `A`, event `GO` offers `[B(false),
C(true), D(true)]`. -/
def bcdConfig : MachineConfig :=
  { id := "bcd",
    initial := "A",
    states :=
      [(("A"),
        { «on» := some
            [(("GO"), OneOrMany.many [some tdB, some tdC, some tdD])] }),
       (("B"), {}),
       (("C"), {}),
       (("D"), {})] }

def bcdMachine : Machine :=
  { initialState := { actions := [], context := [], value := "A" },
    config := bcdConfig }

/-- A falsy candidate after a false-guarded one: `[B(false), null, D(true)]`. -/
def falsyConfig : MachineConfig :=
  { id := "falsy",
    initial := "A",
    states :=
      [(("A"),
        { «on» := some
            [(("GO"), OneOrMany.many [some tdB, none, some tdD])] }),
       (("B"), {}),
       (("D"), {})] }

def falsyMachine : Machine :=
  { initialState := { actions := [], context := [], value := "A" },
    config := falsyConfig }

/-- Named action implementations used by the ordering machine. -/
def exitFn : JSFun := { name := "onExit" }

def transFn : JSFun := { name := "onTransition" }

def entryFn : JSFun := { name := "onEntry" }

/-- The ordering machine: state `a` has an `exit` action, its transition on
`EV` carries a transition action and an assign, and target `b` has an `entry`
action. -/
def orderConfig : MachineConfig :=
  { context := [(("n"), Value.num 0)],
    id := "order",
    initial := "a",
    states :=
      [(("a"),
        { exit := some (OneOrMany.one (ActionDesc.func exitFn)),
          «on» := some
            [(("EV"),
              OneOrMany.one (some (TransitionDesc.obj
                { target := some ("b"),
                  actions := some (OneOrMany.many
                    [ActionDesc.func transFn,
                     ActionDesc.obj (assign (Assignment.obj
                       [(("n"), AssignVal.lit (Value.num 7))]))]) })))] }),
       (("b"),
        { entry := some (OneOrMany.one (ActionDesc.func entryFn)) })] }

def orderMachine : Machine :=
  { initialState :=
      { actions := [], context := [(("n"), Value.num 0)], value := "a" },
    config := orderConfig }

/-- The descriptor returned by `idMachine.transition('idle', 'PING')`. -/
def pingResult : StateDesc :=
  { actions := [],
    changed := some true,
    context := [(("flag"), Value.num 0)],
    value := "idle" }

/-- The normalized combined action list of the ordering machine's transition,
before the assign filter. -/
def orderMapped : List ActionObject :=
  [{ type := "onExit", exec := some exitFn },
   { type := "onTransition", exec := some transFn },
   assign (Assignment.obj [(("n"), AssignVal.lit (Value.num 7))]),
   { type := "onEntry", exec := some entryFn }]

/-- The ordering machine's returned action list: the assign is consumed. -/
def orderKept : List ActionObject :=
  [{ type := "onExit", exec := some exitFn },
   { type := "onTransition", exec := some transFn },
   { type := "onEntry", exec := some entryFn }]

/-! ## Lemmas about context updates and assign folding -/

/-- Setting one key leaves every other key's value unchanged. -/
theorem objGet_setKey_ne (ctx : Context) (key k : String) (v : Value)
    (h : key ≠ k) : objGet (setKey ctx key v) k = objGet ctx k := by
  induction ctx with
  | nil => simp [setKey, objGet, h]
  | cons p rest ih =>
      obtain ⟨k0, v0⟩ := p
      by_cases hk : k0 = key
      · subst hk
        simp [setKey, objGet, h]
      · simp [setKey, hk, objGet, ih]

/-- Folding the per-key updates of an object assignment touches only the
assignment's keys. -/
theorem objGet_foldl_setKey (ev : EventObject) (nextContext : Context)
    (k : String) (entries : List (String × AssignVal)) :
    ∀ (acc : Context), (∀ e ∈ entries, e.fst ≠ k) →
      objGet (entries.foldl
        (fun tempContext kv =>
          setKey tempContext kv.fst (evalAssignVal kv.snd nextContext ev))
        acc) k = objGet acc k := by
  induction entries with
  | nil => intro acc _; rfl
  | cons e rest ih =>
      intro acc h
      simp only [List.foldl_cons]
      rw [ih _ (fun x hx => h x (List.mem_cons_of_mem _ hx))]
      exact objGet_setKey_ne _ _ _ _ (h e (List.mem_cons_self _ _))

/-- The kept actions of the assign-filter pass are exactly the non-assign
actions, in their original order. -/
theorem foldAssigns_ok_kept (ev : EventObject) (l : List ActionObject) :
    ∀ (ctx : Context) (b : Bool) (kept : List ActionObject) (c : Context)
      (b' : Bool),
      foldAssigns ev l ctx b = .ok (kept, c, b') →
      kept = l.filter (fun a => a.type != ASSIGN_ACTION_TYPE) := by
  induction l with
  | nil =>
      intro ctx b kept c b' h
      simp [foldAssigns] at h
      simp [h.1]
  | cons action rest ih =>
      intro ctx b kept c b' h
      by_cases hty : action.type = ASSIGN_ACTION_TYPE
      · simp only [foldAssigns, hty, bne_self_eq_false, Bool.false_eq_true,
          if_false] at h
        cases hasg : action.assignment with
        | none => rw [hasg] at h; exact absurd h (by simp)
        | some asg =>
            rw [hasg] at h
            have := ih _ _ _ _ _ h
            simp [List.filter_cons, hty, this]
      · have hbne : (action.type != ASSIGN_ACTION_TYPE) = true := by
          simp [bne_iff_ne, hty]
        simp only [foldAssigns, hbne, if_true] at h
        cases hrec : foldAssigns ev rest ctx b with
        | error e => rw [hrec] at h; exact absurd h (by simp)
        | ok triple =>
            obtain ⟨k2, c2, b2⟩ := triple
            rw [hrec] at h
            simp only [Except.ok.injEq, Prod.mk.injEq] at h
            obtain ⟨hk, -, -⟩ := h
            have := ih _ _ _ _ _ hrec
            simp [List.filter_cons, hbne, ← hk, this]

/-- Once an assign has been seen, the `assigned` flag stays set. -/
theorem foldAssigns_assigned_mono (ev : EventObject) (l : List ActionObject) :
    ∀ (ctx : Context) (kept : List ActionObject) (c : Context) (b' : Bool),
      foldAssigns ev l ctx true = .ok (kept, c, b') → b' = true := by
  induction l with
  | nil => intro ctx kept c b' h; simp [foldAssigns] at h; exact h.2.2
  | cons action rest ih =>
      intro ctx kept c b' h
      simp only [foldAssigns] at h
      by_cases hty : (action.type != ASSIGN_ACTION_TYPE) = true
      · rw [if_pos hty] at h
        cases hrec : foldAssigns ev rest ctx true with
        | error e => rw [hrec] at h; exact absurd h (by simp)
        | ok triple =>
            obtain ⟨k2, c2, b2⟩ := triple
            rw [hrec] at h
            simp only [Except.ok.injEq, Prod.mk.injEq] at h
            obtain ⟨-, -, hb⟩ := h
            exact hb ▸ ih _ _ _ _ hrec
      · rw [if_neg hty] at h
        cases hasg : action.assignment with
        | none => rw [hasg] at h; exact absurd h (by simp)
        | some asg => rw [hasg] at h; exact ih _ _ _ _ h

/-- If no assign action ran (`assigned` stays `false`), the running context
is the one the fold started from. -/
theorem foldAssigns_false_ctx (ev : EventObject) (l : List ActionObject) :
    ∀ (ctx : Context) (kept : List ActionObject) (c : Context),
      foldAssigns ev l ctx false = .ok (kept, c, false) → c = ctx := by
  induction l with
  | nil => intro ctx kept c h; simp [foldAssigns] at h; exact h.2.symm
  | cons action rest ih =>
      intro ctx kept c h
      simp only [foldAssigns] at h
      by_cases hty : (action.type != ASSIGN_ACTION_TYPE) = true
      · rw [if_pos hty] at h
        cases hrec : foldAssigns ev rest ctx false with
        | error e => rw [hrec] at h; exact absurd h (by simp)
        | ok triple =>
            obtain ⟨k2, c2, b2⟩ := triple
            rw [hrec] at h
            simp only [Except.ok.injEq, Prod.mk.injEq] at h
            obtain ⟨-, hc, hb⟩ := h
            subst hb
            exact hc ▸ ih _ _ _ hrec
      · rw [if_neg hty] at h
        cases hasg : action.assignment with
        | none => rw [hasg] at h; exact absurd h (by simp)
        | some asg =>
            rw [hasg] at h
            exact absurd (foldAssigns_assigned_mono ev rest _ _ _ _ h) (by simp)

/-- When every assign action carries an assignment, the fold succeeds and
keeps exactly the non-assign actions. -/
theorem foldAssigns_total (ev : EventObject) (l : List ActionObject) :
    ∀ (ctx : Context) (b : Bool),
      (∀ a ∈ l, a.type = ASSIGN_ACTION_TYPE → a.assignment.isSome) →
      ∃ (c : Context) (b' : Bool),
        foldAssigns ev l ctx b =
          .ok (l.filter (fun a => a.type != ASSIGN_ACTION_TYPE), c, b') := by
  induction l with
  | nil => intro ctx b _; exact ⟨ctx, b, rfl⟩
  | cons action rest ih =>
      intro ctx b hwf
      by_cases hty : action.type = ASSIGN_ACTION_TYPE
      · have hbne : (action.type != ASSIGN_ACTION_TYPE) = false := by
          simp [bne, hty]
        cases hasg : action.assignment with
        | none =>
            exact absurd (hwf action (List.mem_cons_self _ _) hty)
              (by simp [hasg])
        | some asg =>
            obtain ⟨c, b', hrec⟩ :=
              ih (applyAssignment ctx ev asg) true
                (fun a ha => hwf a (List.mem_cons_of_mem _ ha))
            refine ⟨c, b', ?_⟩
            simp only [foldAssigns, hbne, Bool.false_eq_true, if_false, hasg,
              hrec, List.filter_cons, Bool.false_eq_true, if_false]
      · have hbne : (action.type != ASSIGN_ACTION_TYPE) = true := by
          simp [bne_iff_ne, hty]
        obtain ⟨c, b', hrec⟩ :=
          ih ctx b (fun a ha => hwf a (List.mem_cons_of_mem _ ha))
        refine ⟨c, b', ?_⟩
        simp only [foldAssigns, hbne, if_true, hrec, List.filter_cons]

/-- Every `ok` result of the candidate loop is either the failure descriptor
or the descriptor built from a resolved candidate, whose `changed` field is
the disjunction of a changed value, kept actions, and the assigned flag; and
whenever no assign ran, its context is the context the loop started from. -/
theorem transitionLoop_ok_cases (config : MachineConfig) (context : Context)
    (value : String) (stateConfig : StateConfig) (eventObject : EventObject)
    (l : List (Option TransitionDesc)) :
    ∀ (st : StateDesc),
      transitionLoop config context value stateConfig eventObject l = .ok st →
      st = transitionFailure context value ∨
      ∃ (target : String) (allActions : List ActionObject)
        (nextContext : Context) (assigned : Bool),
        st = { actions := allActions,
               changed :=
                 some (target != value || !allActions.isEmpty || assigned),
               context := nextContext,
               value := target } ∧
        (assigned = false → nextContext = context) := by
  induction l with
  | nil =>
      intro st h
      simp [transitionLoop] at h
      exact Or.inl h.symm
  | cons hd rest ih =>
      intro st h
      cases hd with
      | none =>
          simp [transitionLoop] at h
          exact Or.inl h.symm
      | some tr =>
          simp only [transitionLoop] at h
          by_cases hc :
              ((toTransitionObject tr).cond.getD (fun _ _ => true)) context
                eventObject = true
          · rw [if_pos hc] at h
            split at h
            · exact absurd h (by simp)
            · rename_i nextStateConfig htgt
              split at h
              · exact absurd h (by simp)
              · rename_i allActions nextContext assigned hf
                simp only [Except.ok.injEq] at h
                refine Or.inr ⟨_, allActions, nextContext, assigned,
                  h.symm, ?_⟩
                intro hb
                subst hb
                exact foldAssigns_false_ctx eventObject _ _ _ _ hf
          · rw [if_neg hc] at h
            exact ih st h

/-- Candidates whose guard is false are skipped in declaration order. -/
theorem transitionLoop_skip (config : MachineConfig) (context : Context)
    (value : String) (stateConfig : StateConfig) (eventObject : EventObject)
    (pre rest : List (Option TransitionDesc))
    (hpre : ∀ x ∈ pre, ∃ td, x = some td ∧
      (toTransitionObject td).cond.getD (fun _ _ => true) context eventObject
        = false) :
    transitionLoop config context value stateConfig eventObject (pre ++ rest) =
      transitionLoop config context value stateConfig eventObject rest := by
  induction pre with
  | nil => rfl
  | cons hd tl ih =>
      obtain ⟨td, hx, hcond⟩ := hpre hd (List.mem_cons_self _ _)
      subst hx
      simp only [List.cons_append, transitionLoop]
      rw [if_neg (by simp [hcond])]
      exact ih (fun x hx2 => hpre x (List.mem_cons_of_mem _ hx2))

/-- Unfolding `transition` on a string state whose config and `on` table are
known: the result is the candidate loop over the event's entry. -/
theorem transition_eq_loop (m : Machine) (v : String) (sc : StateConfig)
    (onT : List (String × TransitionValue)) (e : EventArg)
    (hs : objGet m.config.states v = some sc)
    (hon : sc.on = some onT) :
    m.transition (.str v) e =
      transitionLoop m.config m.config.context v sc (toEventObject e)
        (toArrayT (objGet onT (toEventObject e).type)) := by
  simp only [Machine.transition, toStateObject, hs, hon]

/-- `transition` reads only `value` from a descriptor argument. -/
theorem transition_obj_str (m : Machine) (st : StateDesc) (e : EventArg) :
    m.transition (.obj st) e = m.transition (.str st.value) e := rfl

/-! ## Claim theorems -/

/-- Claim C9: `transition` reads only the `value` field of its state argument;
two input descriptors differing in `context` (and in `actions`/`changed`)
produce identical results, both equal to the result on the bare state name —
guard evaluation and assign folding start from the configuration's context. -/
theorem transition_ignores_input_context (m : Machine) (v : String)
    (c1 c2 : Context) (a1 a2 : List ActionObject) (ch1 ch2 : Option Bool)
    (e : EventArg) :
    m.transition
        (.obj { actions := a1, changed := ch1, context := c1, value := v }) e =
      m.transition
        (.obj { actions := a2, changed := ch2, context := c2, value := v }) e ∧
    m.transition
        (.obj { actions := a1, changed := ch1, context := c1, value := v }) e =
      m.transition (.str v) e :=
  ⟨rfl, rfl⟩

/-- Claim C6 (amended): when `initial` names a state id absent from `states`,
`createMachine` itself throws (a `TypeError` from reading
`states[initial].entry`); the error is not deferred to the first
`transition` call. -/
theorem createMachine_throws_on_bad_initial (config : MachineConfig)
    (h : objGet config.states config.initial = none) :
    createMachine config = .error (.typeError ENTRY_OF_UNDEFINED) := by
  simp [createMachine, h]

/-- Claim C6 (counterexample): a config whose `initial` is absent from
`states` makes construction itself fail — `createMachine` does not succeed,
so no error is surfaced lazily on the first `transition` call. -/
theorem eager_initial_validation_counterexample :
    createMachine
        { id := "ghost-machine", initial := "ghost",
          states := [(("real"), {})] } =
      .error (.typeError ENTRY_OF_UNDEFINED) := rfl

theorem createMachine_throws_on_bad_initial_witness :
    createMachine { id := "w6", initial := "missing", states := [] } =
      .error (.typeError ENTRY_OF_UNDEFINED) :=
  createMachine_throws_on_bad_initial
    { id := "w6", initial := "missing", states := [] } rfl

/-- Claim C5 (amended): a matched transition whose `target` is not a key of
`states` makes `transition` throw at transition time — but the raised error
is the `TypeError` from reading `.entry` of `undefined`, which carries
neither the machine id nor the target; the id-carrying configuration error is
raised only for an unknown current state value. -/
theorem bad_target_throws_typeError (m : Machine) (v : String)
    (sc : StateConfig) (onT : List (String × TransitionValue)) (e : EventArg)
    (td : TransitionDesc)
    (hs : objGet m.config.states v = some sc)
    (hon : sc.on = some onT)
    (hev : objGet onT (toEventObject e).type = some (OneOrMany.one (some td)))
    (hcond : (toTransitionObject td).cond.getD (fun _ _ => true)
        m.config.context (toEventObject e) = true)
    (htgt : objGet m.config.states
        ((toTransitionObject td).target.getD v) = none) :
    m.transition (.str v) e = .error (.typeError ENTRY_OF_UNDEFINED) := by
  rw [transition_eq_loop m v sc onT e hs hon, hev]
  simp only [toArrayT, transitionLoop]
  rw [if_pos hcond]
  simp only [htgt]

/-- Claim C5 (counterexample): on a machine with id `bt` and a transition
targeting the nonexistent state `nope`, the call throws the structured
`TypeError`, which is not the id-carrying configuration error. -/
theorem bad_target_error_counterexample :
    btMachine.transition (.str ("a")) (.str ("GO")) =
      .error (.typeError ENTRY_OF_UNDEFINED) ∧
    JSError.typeError ENTRY_OF_UNDEFINED ≠
      JSError.unknownState ("bt") ("nope") :=
  ⟨rfl, by decide⟩

theorem bad_target_throws_typeError_witness :
    btMachine.transition (.str ("a")) (.str ("GO")) =
      .error (.typeError ENTRY_OF_UNDEFINED) :=
  bad_target_throws_typeError btMachine ("a") _ _ (.str ("GO"))
    (TransitionDesc.str ("nope")) rfl rfl rfl rfl rfl

/-- Claim C7: a falsy entry in a multi-candidate transition list, reached in
declaration order after only false-guarded candidates, makes the whole event
resolution fail immediately: `transition` returns the failure descriptor
(`changed: false`, unchanged `value`, empty `actions`) instead of skipping
the falsy candidate. -/
theorem falsy_candidate_short_circuits (m : Machine) (v : String)
    (sc : StateConfig) (onT : List (String × TransitionValue)) (e : EventArg)
    (pre l2 : List (Option TransitionDesc))
    (hs : objGet m.config.states v = some sc)
    (hon : sc.on = some onT)
    (hev : objGet onT (toEventObject e).type =
      some (OneOrMany.many (pre ++ none :: l2)))
    (hpre : ∀ x ∈ pre, ∃ td, x = some td ∧
      (toTransitionObject td).cond.getD (fun _ _ => true) m.config.context
        (toEventObject e) = false) :
    m.transition (.str v) e =
      .ok { actions := [], changed := some false,
            context := m.config.context, value := v } := by
  rw [transition_eq_loop m v sc onT e hs hon, hev]
  show transitionLoop _ _ _ _ _ (pre ++ none :: l2) = _
  rw [transitionLoop_skip _ _ _ _ _ pre (none :: l2) hpre]
  rfl

theorem falsy_candidate_short_circuits_witness :
    falsyMachine.transition (.str ("A")) (.str ("GO")) =
      .ok { actions := [], changed := some false, context := [],
            value := ("A") } :=
  falsy_candidate_short_circuits falsyMachine ("A") _ _ (.str ("GO"))
    [some tdB] [some tdD] rfl rfl rfl
    (by intro x hx; simp at hx; subst hx; exact ⟨tdB, rfl, rfl⟩)

/-- Claim C8: while a service is stopped — never started, or after `stop()`
(which also resets the started flag) — `send` is a no-op: the service (hence
`currentState()`) is unchanged, no `exec` is invoked and no listener is
notified; a freshly interpreted service starts out stopped. -/
theorem stopped_send_noop (machine : Machine) (s : Service) (e : EventArg)
    (h : s.isStarted = false) :
    Service.send machine s e = .ok (s, [], []) ∧
    Service.send machine (Service.stop s) e = .ok (Service.stop s, [], []) ∧
    (interpret machine).isStarted = false := by
  refine ⟨?_, ?_, rfl⟩
  · simp [Service.send, h]
  · simp [Service.send, Service.stop]

theorem stopped_send_noop_witness :
    Service.send idMachine
        { state := idMachine.initialState, isStarted := false,
          listeners := [0] } (.str ("PING")) =
      .ok ({ state := idMachine.initialState, isStarted := false,
             listeners := [0] }, [], []) :=
  (stopped_send_noop idMachine
    { state := idMachine.initialState, isStarted := false, listeners := [0] }
    (.str ("PING")) rfl).1

/-- Claim C10: folding an object-shaped assignment is a shallow merge onto a
copy of the running context: every key not named by the assignment keeps its
previous value (and the prior context value itself is a distinct, unmodified
value in this pure embedding). -/
theorem object_assignment_frame (ctx : Context) (ev : EventObject)
    (entries : List (String × AssignVal)) (k : String)
    (h : ∀ p ∈ entries, p.fst ≠ k) :
    objGet (applyAssignment ctx ev (Assignment.obj entries)) k =
      objGet ctx k := by
  simp only [applyAssignment]
  exact objGet_foldl_setKey ev ctx k entries ctx h

theorem object_assignment_frame_witness :
    objGet (applyAssignment [(("a"), Value.num 1), (("b"), Value.num 2)]
        { type := "E" }
        (Assignment.obj [(("a"), AssignVal.lit (Value.num 9))])) ("b") =
      objGet [(("a"), Value.num 1), (("b"), Value.num 2)] ("b") :=
  object_assignment_frame [(("a"), Value.num 1), (("b"), Value.num 2)]
    { type := "E" } [(("a"), AssignVal.lit (Value.num 9))] ("b")
    (by intro p hp; simp at hp; subst hp; decide)

/-- Claim C1 (amended): assign folding starts from the context captured in
the machine configuration, not from the input descriptor's context; on the
counter machine every `transition` call from `idle` — including the call on
the descriptor returned by the first call — yields `context.count === 1`. -/
theorem sequentialAssign_uses_config_context (st : StateDesc)
    (h : st.value = ("idle")) :
    counterMachine.transition (.obj st) (.str ("INC")) = .ok counterAfterOne ∧
    counterMachine.transition (.str ("idle")) (.str ("INC")) =
      .ok counterAfterOne := by
  obtain ⟨a, ch, c, v⟩ := st
  have hv : v = ("idle") := h
  subst hv
  exact ⟨rfl, rfl⟩

/-- Claim C1 (counterexample): on the counter machine with initial context
`count: 0` and a self-transition carrying `assign(count: c => c.count + 1)`,
the second `transition` call on the first call's returned descriptor yields
`count = 1`, not `2`. -/
theorem sequentialAssign_counterexample :
    counterMachine.transition (.str ("idle")) (.str ("INC")) =
      .ok counterAfterOne ∧
    counterMachine.transition (.obj counterAfterOne) (.str ("INC")) =
      .ok counterAfterOne ∧
    objGet counterAfterOne.context ("count") = some (Value.num 1) ∧
    some (Value.num 1) ≠ some (Value.num 2) :=
  ⟨rfl, rfl, rfl, by decide⟩

theorem sequentialAssign_uses_config_context_witness :
    counterMachine.transition (.obj counterAfterOne) (.str ("INC")) =
      .ok counterAfterOne :=
  (sequentialAssign_uses_config_context counterAfterOne rfl).1

/-- Case analysis of a successful `transition` on a state name: the result is
either the failure descriptor or a resolved-candidate descriptor. -/
theorem transition_str_ok_cases (m : Machine) (v : String) (e : EventArg)
    (st : StateDesc) (h : m.transition (.str v) e = .ok st) :
    st = transitionFailure m.config.context v ∨
    ∃ (target : String) (allActions : List ActionObject)
      (nextContext : Context) (assigned : Bool),
      st = { actions := allActions,
             changed := some (target != v || !allActions.isEmpty || assigned),
             context := nextContext,
             value := target } ∧
      (assigned = false → nextContext = m.config.context) := by
  simp only [Machine.transition, toStateObject] at h
  split at h
  · exact absurd h (by simp)
  · rename_i sc hq
    split at h
    · simp only [Except.ok.injEq] at h
      exact Or.inl h.symm
    · rename_i onT hon
      exact transitionLoop_ok_cases _ _ _ _ _ _ st h

/-- Claim C2 (amended): `changed` is absent exactly on the literal initial
state and present on every `transition` result; it is `false` only for a true
no-op (unchanged `value`, no returned actions, context equal to the
configuration's); a differing `value` or a non-empty action list forces
`true` — but `changed` may also be `true` with none of those, namely when an
assign action was consumed without altering the context. -/
theorem changed_flag_characterization (config : MachineConfig) (m : Machine)
    (s : StateArg) (e : EventArg) (st : StateDesc)
    (hm : createMachine config = .ok m)
    (h : m.transition s e = .ok st) :
    m.initialState.changed = none ∧
    st.changed.isSome = true ∧
    (st.changed = some false →
      st.value = (toStateObject s).value ∧ st.actions = [] ∧
        st.context = m.config.context) ∧
    ((st.value ≠ (toStateObject s).value ∨ st.actions ≠ []) →
      st.changed = some true) := by
  have hTrans : m.transition s e =
      m.transition (.str (toStateObject s).value) e := by
    cases s with
    | str s0 => rfl
    | obj st0 => rfl
  rw [hTrans] at h
  have hcases := transition_str_ok_cases m (toStateObject s).value e st h
  refine ⟨?_, ?_, ?_, ?_⟩
  · cases hq : objGet config.states config.initial with
    | none =>
        simp only [createMachine, hq] at hm
        exact absurd hm (by simp)
    | some sc0 =>
        simp only [createMachine, hq, Except.ok.injEq] at hm
        subst hm
        rfl
  · rcases hcases with hfail | ⟨t, aa, nc, b, hst, -⟩
    · rw [hfail]; rfl
    · rw [hst]; rfl
  · intro hch
    rcases hcases with hfail | ⟨t, aa, nc, b, hst, himp⟩
    · rw [hfail]; exact ⟨rfl, rfl, rfl⟩
    · subst hst
      have hbool : (t != (toStateObject s).value || !aa.isEmpty || b)
          = false := by
        simpa using hch
      simp only [Bool.or_eq_false_iff] at hbool
      obtain ⟨⟨h1, h2⟩, h3⟩ := hbool
      refine ⟨?_, ?_, himp h3⟩
      · simpa [bne] using h1
      · have : aa.isEmpty = true := by simpa using h2
        simpa [List.isEmpty_iff] using this
  · intro hd
    rcases hcases with hfail | ⟨t, aa, nc, b, hst, -⟩
    · exfalso
      rw [hfail] at hd
      rcases hd with h1 | h2
      · exact h1 rfl
      · exact h2 rfl
    · subst hst
      rcases hd with h1 | h2
      · have hb : (t != (toStateObject s).value) = true := bne_iff_ne.mpr h1
        simp [hb]
      · have hne : aa ≠ [] := h2
        have hb : aa.isEmpty = false := by
          simpa [List.isEmpty_iff] using hne
        simp [hb]

/-- Claim C2 (counterexample): a self-transition whose only action is the
context-preserving `assign(c => c)` yields `changed: true` although the
value is unchanged, the returned action list is empty and the context equals
the previous one — refuting the claimed iff. -/
theorem changed_true_without_mutation_counterexample :
    idMachine.transition (.str ("idle")) (.str ("PING")) = .ok pingResult ∧
    pingResult.changed = some true ∧
    pingResult.value = ("idle") ∧
    pingResult.actions = [] ∧
    pingResult.context = idMachine.config.context :=
  ⟨rfl, rfl, rfl, rfl, rfl⟩

theorem changed_flag_characterization_witness :
    idMachine.initialState.changed = none ∧
    pingResult.changed.isSome = true ∧
    (pingResult.changed = some false →
      pingResult.value = (toStateObject (.str ("idle"))).value ∧
        pingResult.actions = [] ∧
        pingResult.context = idMachine.config.context) ∧
    ((pingResult.value ≠ (toStateObject (.str ("idle"))).value ∨
        pingResult.actions ≠ []) →
      pingResult.changed = some true) :=
  changed_flag_characterization idConfig idMachine (.str ("idle"))
    (.str ("PING")) pingResult rfl rfl

/-- Claim C4: candidates are evaluated strictly in declaration order; the
first candidate whose guard is truthy is taken, and whatever follows it is
irrelevant — the result equals the loop run on that candidate alone; and when
every candidate's guard is false, `transition` returns the failure result
(`changed: false`, unchanged `value`). -/
theorem guard_first_truthy_wins (m : Machine) (v : String) (sc : StateConfig)
    (onT : List (String × TransitionValue)) (e : EventArg)
    (hs : objGet m.config.states v = some sc)
    (hon : sc.on = some onT) :
    (∀ (pre : List (Option TransitionDesc)) (td : TransitionDesc)
       (l2 : List (Option TransitionDesc)),
      objGet onT (toEventObject e).type =
          some (OneOrMany.many (pre ++ some td :: l2)) →
      (∀ x ∈ pre, ∃ td0, x = some td0 ∧
        (toTransitionObject td0).cond.getD (fun _ _ => true) m.config.context
          (toEventObject e) = false) →
      (toTransitionObject td).cond.getD (fun _ _ => true) m.config.context
          (toEventObject e) = true →
      m.transition (.str v) e =
        transitionLoop m.config m.config.context v sc (toEventObject e)
          [some td]) ∧
    (∀ (l : List (Option TransitionDesc)),
      objGet onT (toEventObject e).type = some (OneOrMany.many l) →
      (∀ x ∈ l, ∃ td0, x = some td0 ∧
        (toTransitionObject td0).cond.getD (fun _ _ => true) m.config.context
          (toEventObject e) = false) →
      m.transition (.str v) e =
        .ok { actions := [], changed := some false,
              context := m.config.context, value := v }) := by
  constructor
  · intro pre td l2 hev hpre hcond
    rw [transition_eq_loop m v sc onT e hs hon, hev]
    show transitionLoop _ _ _ _ _ (pre ++ some td :: l2) = _
    rw [transitionLoop_skip _ _ _ _ _ pre (some td :: l2) hpre]
    simp only [transitionLoop]
    rw [if_pos hcond, if_pos hcond]
  · intro l hev hall
    rw [transition_eq_loop m v sc onT e hs hon, hev]
    show transitionLoop _ _ _ _ _ l = _
    have hnil := transitionLoop_skip m.config m.config.context v sc
      (toEventObject e) l [] hall
    rw [List.append_nil] at hnil
    rw [hnil]
    rfl

theorem guard_first_truthy_wins_witness :
    bcdMachine.transition (.str ("A")) (.str ("GO")) =
      .ok { actions := [], changed := some true, context := [],
            value := ("C") } := by
  have h := (guard_first_truthy_wins bcdMachine ("A") _ _ (.str ("GO"))
      rfl rfl).1 [some tdB] tdC [some tdD] rfl
    (by intro x hx; simp at hx; subst hx; exact ⟨tdB, rfl, rfl⟩) rfl
  exact h.trans rfl

/-- Claim C3: for a matched transition with `exit`, transition `actions` and
target `entry` all defined, the returned action list is the normalized
concatenation `[exit..., transitionActions..., entry...]` in that order with
every assign-type descriptor consumed (removed), and the interpreter's `send`
invokes the returned descriptors' `exec`s in exactly that order. -/
theorem action_order_exit_transition_entry (m : Machine) (v tg : String)
    (sc sc2 : StateConfig) (onT : List (String × TransitionValue))
    (e : EventArg) (td : TransitionDesc) (ex acts en : OneOrMany ActionDesc)
    (mapped kept : List ActionObject) (ctx : Context) (b : Bool)
    (hs : objGet m.config.states v = some sc)
    (hon : sc.on = some onT)
    (hev : objGet onT (toEventObject e).type = some (OneOrMany.one (some td)))
    (hcond : (toTransitionObject td).cond.getD (fun _ _ => true)
        m.config.context (toEventObject e) = true)
    (htg : (toTransitionObject td).target.getD v = tg)
    (hsc2 : objGet m.config.states tg = some sc2)
    (hx : sc.exit = some ex)
    (ha : (toTransitionObject td).actions = some acts)
    (hen : sc2.entry = some en)
    (hmap : mapped =
      (((fieldRaw (some ex) ++ actionsRaw (some acts) ++
          fieldRaw (some en)).filter actionTruthy).filterMap
        (fun x => x)).map toActionObject)
    (hfold : foldAssigns (toEventObject e) mapped m.config.context false =
      .ok (kept, ctx, b)) :
    kept = mapped.filter (fun a => a.type != ASSIGN_ACTION_TYPE) ∧
    m.transition (.str v) e =
      .ok { actions := kept,
            changed := some (tg != v || !kept.isEmpty || b),
            context := ctx, value := tg } ∧
    (∀ (st0 : StateDesc) (ls : List Nat), st0.value = v →
      Service.send m { state := st0, isStarted := true, listeners := ls } e =
        .ok ({ state := { actions := kept,
                          changed := some (tg != v || !kept.isEmpty || b),
                          context := ctx, value := tg },
               isStarted := true, listeners := ls },
             kept.filterMap (fun a => a.exec.map (fun f =>
               { fn := f, context := ctx, event := toEventObject e })),
             ls)) := by
  have hkept := foldAssigns_ok_kept (toEventObject e) mapped _ _ _ _ _ hfold
  have htrans : m.transition (.str v) e =
      .ok { actions := kept,
            changed := some (tg != v || !kept.isEmpty || b),
            context := ctx, value := tg } := by
    rw [transition_eq_loop m v sc onT e hs hon, hev]
    simp only [toArrayT, transitionLoop]
    rw [if_pos hcond]
    rw [htg]
    simp only [hsc2, hx, ha, hen, ← hmap, hfold]
  refine ⟨hkept, htrans, ?_⟩
  intro st0 ls hv
  have hobj : m.transition (.obj st0) e = m.transition (.str v) e := by
    rw [transition_obj_str, hv]
  simp only [Service.send, Bool.not_true, Bool.false_eq_true, if_false,
    hobj, htrans]

theorem action_order_exit_transition_entry_witness :
    orderMachine.transition (.str ("a")) (.str ("EV")) =
      .ok { actions := orderKept, changed := some true,
            context := [(("n"), Value.num 7)], value := ("b") } ∧
    Service.send orderMachine
        { state := orderMachine.initialState, isStarted := true,
          listeners := [0] } (.str ("EV")) =
      .ok ({ state := { actions := orderKept, changed := some true,
                        context := [(("n"), Value.num 7)], value := ("b") },
             isStarted := true, listeners := [0] },
           [{ fn := exitFn, context := [(("n"), Value.num 7)],
              event := { type := "EV" } },
            { fn := transFn, context := [(("n"), Value.num 7)],
              event := { type := "EV" } },
            { fn := entryFn, context := [(("n"), Value.num 7)],
              event := { type := "EV" } }],
           [0]) := by
  have h := action_order_exit_transition_entry orderMachine ("a") ("b")
    _ _ _ (.str ("EV")) _ _ _ _ orderMapped orderKept
    [(("n"), Value.num 7)] true rfl rfl rfl rfl rfl rfl rfl rfl rfl rfl rfl
  exact ⟨h.2.1, h.2.2 orderMachine.initialState [0] rfl⟩
